import Mathlib

/-
Verification of the grading-orchestrator Manager (src/manager.py) against its
natural-language specification.

The Python module is shallowly embedded: the document store (MongoDB in the
original) is an explicit `DBState`, alert delivery is a log in a `World`
record, `async` methods become state-passing functions, and Python exceptions
become `Except String`.  The helpers imported from `utils.basic`
(`map_verdict`, `map_attempt_status`, `generate_tests_verdicts`) are not part
of the repository sources available here; they are modelled from the spec and
marked as such in their doc comments.
-/

set_option maxHeartbeats 1000000

namespace Accept

/-- Modelled from the spec: `utils.basic.map_verdict` is not under `src/`.
The spec fixes that verdict code 0 denotes full success ("OK") and that
non-zero codes denote distinct failure classes (glossary: wrong answer,
time-limit, memory-limit, compile error, system error, not-tested); the
concrete non-zero values are arbitrary distinct codes. -/
def map_verdict (kind : String) : Nat :=
  if kind == "OK" then 0
  else if kind == "PT" then 1
  else if kind == "CE" then 2
  else if kind == "RE" then 3
  else if kind == "WA" then 4
  else if kind == "TL" then 5
  else if kind == "ML" then 6
  else if kind == "SE" then 7
  else 8

/-- Modelled from the spec: `utils.basic.map_attempt_status` is not under
`src/`.  The spec fixes the closed status set pending, testing, finished;
the concrete codes are arbitrary distinct values. -/
def map_attempt_status (kind : String) : Nat :=
  if kind == "pending" then 0
  else if kind == "testing" then 1
  else 2

/-- Modelled from the spec: `utils.basic.generate_tests_verdicts` is not under
`src/`.  Per the spec it produces a uniform verdict of the given kind for
every existing Result slot. -/
def generate_tests_verdicts (kind : String) (n : Nat) : List Nat :=
  List.replicate n (map_verdict kind)

/-- Embeds `Attempt.Result`: a reference to a task test plus a verdict code
(verdicts start out unset; the unset value is irrelevant to the claims). -/
structure Result where
  test : String
  verdict : Nat
deriving DecidableEq

/-- Embeds the fields of `models.Attempt` used by `Manager`. -/
structure Attempt where
  spec : String
  date : Nat
  results : List Result
deriving DecidableEq

/-- Embeds the embedded checker program descriptor of a pending queue item. -/
structure Checker where
  language : String
  sourceCode : String
deriving DecidableEq

/-- Embeds the fields of `models.PendingQueueItem` used by `Manager`. -/
structure PendingQueueItem where
  taskType : Nat
  taskCheckType : Nat
  checker : Option Checker
deriving DecidableEq

/-- Embeds the `current_attempt` dictionary built in
`Manager._save_task_results` (and hence also the entries of the `results`
and `bests` arrays of a `user_task_result` document). -/
structure Snapshot where
  attempt : String
  date : Nat
  passedTests : Nat
  percentTests : Nat
  verdict : Nat
  verdictTest : Nat
deriving DecidableEq

/-- Embeds a document of the `attempt` collection (only the fields read or
written by `Manager`). -/
structure AttemptDoc where
  spec : String
  status : Nat
  verdict : Nat
  verdictTest : Nat
  results : List Result
  logs : List String
deriving DecidableEq

/-- Embeds a document of the `user_task_result` collection. -/
structure UserTaskResultDoc where
  task : String
  user : String
  results : List Snapshot
  bests : List Snapshot
deriving DecidableEq

/-- The document store: one list of documents per collection touched by
`Manager`.  `userTaskStatus` documents are (attempt spec, status) pairs,
`pendingTaskAttempts` documents are reduced to their attempt spec, and
`ratings` documents are (user, score) pairs. -/
structure DBState where
  attempts : List AttemptDoc
  userTaskStatus : List (String × Nat)
  pendingTaskAttempts : List String
  userTaskResults : List UserTaskResultDoc
  ratings : List (String × Nat)
deriving DecidableEq

/-- The world a `Manager` invocation acts on: the document store plus the
log of alerts sent so far ((kind, message) pairs). -/
structure World where
  db : DBState
  alerts : List (String × String)
deriving DecidableEq

/-- Embeds `utils.basic.send_alert` as far as the core observes it:
fire-and-forget delivery of one (kind, message) alert. -/
def send_alert (w : World) (kind message : String) : World :=
  { w with alerts := w.alerts ++ [(kind, message)] }

/-- Embeds the `DATABASE.update_one` call on the `attempt` collection in
`Manager._set_testing` (manager.py line 75), together with the store's reply:
`modified_count` is 1 exactly when a document matched the spec filter and the
set operation actually changed its status (MongoDB does not count documents
the update left unchanged). -/
def updateAttemptStatus (db : DBState) (spec : String) (status : Nat) :
    DBState × Nat :=
  match db.attempts.find? (fun d => d.spec == spec) with
  | none => (db, 0)
  | some d =>
      ({ db with
          attempts := db.attempts.map (fun x =>
            if x.spec == spec then { x with status := status } else x) },
       if d.status == status then 0 else 1)

/-- Embeds the `DATABASE.update_one` calls on the `user_task_status`
collection (manager.py lines 78 and 249): set the status of the mirror
document keyed by the attempt spec.  `Manager` never reads this call's
modified count. -/
def updateUserTaskStatus (db : DBState) (attemptSpec : String) (status : Nat) :
    DBState :=
  { db with
      userTaskStatus := db.userTaskStatus.map (fun p =>
        if p.1 == attemptSpec then (p.1, status) else p) }

/-- Embeds `DATABASE.delete_one("pending_task_attempt", attempt filter)`
(manager.py line 233): remove the first grading-job descriptor for the
attempt, if any. -/
def deletePendingTaskAttempt (db : DBState) (attemptSpec : String) : DBState :=
  { db with
      pendingTaskAttempts :=
        db.pendingTaskAttempts.eraseP (fun a => a == attemptSpec) }

/-- Embeds the upserting `DATABASE.update_one` on the `rating` collection
(manager.py line 192): increment the user's score by one, creating the
document with score 1 when it does not exist. -/
def incRatingUpsert (db : DBState) (user : String) : DBState :=
  if db.ratings.any (fun p => p.1 == user) then
    { db with
        ratings := db.ratings.map (fun p =>
          if p.1 == user then (p.1, p.2 + 1) else p) }
  else
    { db with ratings := db.ratings ++ [(user, 1)] }

/-- Observer: the score the `rating` collection currently stores for a user
(0 when no document exists, matching the upsert's missing-field baseline). -/
def rating_score (db : DBState) (user : String) : Nat :=
  match db.ratings.find? (fun p => p.1 == user) with
  | none => 0
  | some p => p.2

/-- Observer: the length of the `results` history of the `user_task_result`
document for a (task, user) pair, 0 when no aggregate exists yet. -/
def aggregate_results_count (db : DBState) (task user : String) : Nat :=
  match db.userTaskResults.find? (fun d => d.task == task && d.user == user) with
  | none => 0
  | some d => d.results.length

/-- Embeds the first loop of `Manager._get_attempt_final_info` (manager.py
lines 104-105): assign `verdicts[i]` to `results[i].verdict` in order. -/
def assignVerdicts (results : List Result) (verdicts : List Nat) : List Result :=
  List.zipWith (fun r v => { r with verdict := v }) results verdicts

/-- Embeds the scan loop of `Manager._get_attempt_final_info` (manager.py
lines 110-114): the running final verdict is the verdict of the last visited
result, the running final index the 1-based count of visited results, and the
scan stops at the first non-zero verdict. -/
def finalScan : List Result → Nat → Nat → Nat × Nat
  | [], finalVerdict, idx => (finalVerdict, idx)
  | r :: rest, _, idx =>
      if r.verdict ≠ 0 then (r.verdict, idx + 1)
      else finalScan rest r.verdict (idx + 1)

/-- Embeds `Manager._get_attempt_final_info` (manager.py lines 99-115).  The
Python method mutates the result list in place; here the updated list is
returned together with the (final verdict, final verdict test) pair, whose
initial values are the not-tested code and 0. -/
def _get_attempt_final_info (results : List Result) (verdicts : List Nat) :
    List Result × Nat × Nat :=
  let updated := assignVerdicts results verdicts
  (updated, finalScan updated (map_verdict "NT") 0)

/-- Embeds `Manager._save_attempt_results` (manager.py lines 117-138): set
the attempt document to status finished with the final verdict, final verdict
test, updated results and logs. -/
def _save_attempt_results (db : DBState) (attempt_spec : String)
    (results : List Result) (attempt_final_verdict attempt_final_verdict_test : Nat)
    (logs : List String) : DBState :=
  { db with
      attempts := db.attempts.map (fun d =>
        if d.spec == attempt_spec then
          { d with
              status := map_attempt_status "finished"
              verdict := attempt_final_verdict
              verdictTest := attempt_final_verdict_test
              results := results
              logs := logs }
        else d) }

/-- Embeds the `current_attempt` snapshot built in
`Manager._save_task_results` (manager.py lines 149-162).  `passedTests`
counts the verdicts equal to the OK code; `percentTests` embeds
`floor(passed_tests / len(verdicts) * 100)` as exact natural arithmetic
(IEEE-754 double rounding of the Python true division is not modelled; see
the percentTests analysis). -/
def current_attempt_snapshot (attempt : Attempt) (verdicts : List Nat)
    (attempt_final_verdict attempt_final_verdict_test : Nat) : Snapshot :=
  let passed_tests := (verdicts.filter (fun v => v == map_verdict "OK")).length
  { attempt := attempt.spec
    date := attempt.date
    passedTests := passed_tests
    percentTests := passed_tests * 100 / verdicts.length
    verdict := attempt_final_verdict
    verdictTest := attempt_final_verdict_test }

/-- Embeds the `best_attempt` lookup of `Manager._save_task_results`
(manager.py lines 166-173): none when no aggregate document exists or its
`bests` array is empty, otherwise the last `bests` entry. -/
def previous_best (db : DBState) (task_spec author_login : String) :
    Option Snapshot :=
  match db.userTaskResults.find? (fun d =>
      d.task == task_spec && d.user == author_login) with
  | none => none
  | some d => d.bests.getLast?

/-- Embeds the `new_best_attempt` selection of `Manager._save_task_results`
(manager.py lines 175-183): carry the previous best forward with a refreshed
date when both it and the current attempt are fully correct or when its
percentage strictly exceeds the current one; otherwise the current snapshot
becomes the best.  The chained Python comparison reads: previous verdict =
current verdict and current verdict = OK. -/
def new_best_attempt (best_attempt : Option Snapshot)
    (current_attempt : Snapshot) : Snapshot :=
  match best_attempt with
  | some b =>
      if (b.verdict = current_attempt.verdict ∧
            current_attempt.verdict = map_verdict "OK") ∨
          b.percentTests > current_attempt.percentTests then
        { b with date := current_attempt.date }
      else current_attempt
  | none => current_attempt

/-- Embeds `Manager._save_task_results` (manager.py lines 140-216).  The
Python division `passed_tests / len(verdicts)` raises ZeroDivisionError when
the verdict list is empty; this is the only exception the method itself can
raise, and it is raised before any database action is issued. -/
def _save_task_results (w : World) (attempt : Attempt)
    (author_login task_spec : String) (verdicts : List Nat)
    (attempt_final_verdict attempt_final_verdict_test : Nat) :
    World × Except String Unit :=
  if verdicts.length == 0 then
    (w, .error "ZeroDivisionError: division by zero")
  else
    let current := current_attempt_snapshot attempt verdicts
      attempt_final_verdict attempt_final_verdict_test
    let utr? := w.db.userTaskResults.find? (fun d =>
      d.task == task_spec && d.user == author_login)
    let best := previous_best w.db task_spec author_login
    let nb := new_best_attempt best current
    let db1 :=
      if (best.all fun b => b.verdict != 0) && nb.verdict == 0 then
        incRatingUpsert w.db author_login
      else w.db
    let db2 :=
      match utr? with
      | none =>
          { db1 with
              userTaskResults := db1.userTaskResults ++
                [{ task := task_spec
                   user := author_login
                   results := [current]
                   bests := [nb] }] }
      | some _ =>
          { db1 with
              userTaskResults := db1.userTaskResults.map (fun d =>
                if d.task == task_spec && d.user == author_login then
                  { d with
                      results := d.results ++ [current]
                      bests := d.bests ++ [nb] }
                else d) }
    ({ w with db := db2 }, .ok ())

/-- Embeds `Manager._save_results` (manager.py lines 218-255).  The four
sub-operations are issued concurrently through `asyncio.gather`; gather does
not cancel the sibling writes when the aggregate write raises, so all four
document updates are applied here and the ZeroDivisionError of
`_save_task_results`, if any, is propagated afterwards. -/
def _save_results (w : World) (attempt : Attempt)
    (author_login task_spec : String) (verdicts : List Nat)
    (logs : List String) : World × Except String Unit :=
  let info := _get_attempt_final_info attempt.results verdicts
  let w1 := { w with db := deletePendingTaskAttempt w.db attempt.spec }
  let w2 := { w1 with
    db := _save_attempt_results w1.db attempt.spec info.1 info.2.1 info.2.2 logs }
  let r := _save_task_results w2 attempt author_login task_spec verdicts
    info.2.1 info.2.2
  ({ r.1 with
      db := updateUserTaskStatus r.1.db attempt.spec
        (map_attempt_status "finished") },
   r.2)

/-- Embeds `Manager._set_testing` (manager.py lines 69-97): set the attempt
document and the user-task-status mirror to testing, read the attempt
update's modified count, and on failure to claim write the not-tested
fallback through `_save_results` before returning false. -/
def _set_testing (w : World) (attempt : Attempt)
    (author_login task_spec : String) : World × Except String Bool :=
  let status := map_attempt_status "testing"
  let p := updateAttemptStatus w.db attempt.spec status
  let w1 := { w with db := updateUserTaskStatus p.1 attempt.spec status }
  if p.2 == 1 then (w1, .ok true)
  else
    match _save_results w1 attempt author_login task_spec
        (generate_tests_verdicts "NT" attempt.results.length)
        ["Error in setting testing status"] with
    | (w2, .ok _) => (w2, .ok false)
    | (w2, .error e) => (w2, .error e)

/-- A grading strategy as the core observes it (spec section 6): one call
that either returns equal-length verdicts and a log bundle or raises.  It
stands for the whole strategy invocation of a handler, including the
language lookups, folder setup and teardown that surround it. -/
abbrev Strategy := World → World × Except String (List Nat × List String)

/-- Embeds the body of `Manager._handle_text_task` (manager.py lines
287-309), the undecorated function `_soft_run` wraps: claim the lease, stop
on failure, otherwise run the text checker strategy and persist its
verdicts and logs. -/
def _handle_text_task (strategy : Strategy) (w : World) (attempt : Attempt)
    (author_login task_spec : String) : World × Except String Unit :=
  match _set_testing w attempt author_login task_spec with
  | (w1, .error e) => (w1, .error e)
  | (w1, .ok false) => (w1, .ok ())
  | (w1, .ok true) =>
      match strategy w1 with
      | (w2, .error e) => (w2, .error e)
      | (w2, .ok vl) => _save_results w2 attempt author_login task_spec vl.1 vl.2

/-- Embeds the body of `Manager._handle_tests_checker` (manager.py lines
311-340), the undecorated function `_soft_run` wraps. -/
def _handle_tests_checker (strategy : Strategy) (w : World) (attempt : Attempt)
    (author_login task_spec : String) : World × Except String Unit :=
  match _set_testing w attempt author_login task_spec with
  | (w1, .error e) => (w1, .error e)
  | (w1, .ok false) => (w1, .ok ())
  | (w1, .ok true) =>
      match strategy w1 with
      | (w2, .error e) => (w2, .error e)
      | (w2, .ok vl) => _save_results w2 attempt author_login task_spec vl.1 vl.2

/-- Embeds the body of `Manager._handle_custom_checker` (manager.py lines
342-389), the undecorated function `_soft_run` wraps: after the lease is
acquired, a queue item without a checker descriptor triggers the not-tested
fallback write and an early return. -/
def _handle_custom_checker (strategy : Strategy) (w : World) (attempt : Attempt)
    (author_login task_spec : String) (queue_item : PendingQueueItem) :
    World × Except String Unit :=
  match _set_testing w attempt author_login task_spec with
  | (w1, .error e) => (w1, .error e)
  | (w1, .ok false) => (w1, .ok ())
  | (w1, .ok true) =>
      match queue_item.checker with
      | none =>
          _save_results w1 attempt author_login task_spec
            (generate_tests_verdicts "NT" attempt.results.length)
            ["Error in setting testing status"]
      | some _ =>
          match strategy w1 with
          | (w2, .error e) => (w2, .error e)
          | (w2, .ok vl) =>
              _save_results w2 attempt author_login task_spec vl.1 vl.2

/-- Embeds the `_soft_run` decorator (manager.py lines 27-63) applied to a
handler body `func`: on success the wrapper is transparent; on any exception
it sends one ManagerError alert carrying the attempt spec and the exception
text, force-completes the attempt through `_save_results` with a uniform
system-error verdict per existing result slot and the exception text as the
sole log entry, and, should that save itself raise, sends one further,
distinct alert.  The wrapper never re-raises, which the return type
(a `World`, not an `Except`) makes structural. -/
def soft_run (func : World → World × Except String Unit) (attempt : Attempt)
    (author_login task_spec : String) (w : World) : World :=
  match func w with
  | (w1, .ok _) => w1
  | (w1, .error manager_exc) =>
      let w2 := send_alert w1 "ManagerError" (attempt.spec ++ "\n" ++ manager_exc)
      match _save_results w2 attempt author_login task_spec
          (generate_tests_verdicts "SE" attempt.results.length)
          [manager_exc] with
      | (w3, .ok _) => w3
      | (w3, .error saving_exception) =>
          send_alert w3 "ManagerError (when saving results)"
            (attempt.spec ++ "\n" ++ saving_exception)

/-- Sample attempt with a single result slot, used by concrete witnesses. -/
def attemptA : Attempt :=
  { spec := "att1", date := 5, results := [{ test := "t1", verdict := 0 }] }

/-- Sample attempt with no result slots at all. -/
def attemptEmpty : Attempt := { spec := "e0", date := 5, results := [] }

/-- Store holding `attemptA` still pending, its mirror document, and its
grading-job descriptor. -/
def worldA : World :=
  { db := { attempts := [{ spec := "att1", status := 0, verdict := 0,
                           verdictTest := 0,
                           results := [{ test := "t1", verdict := 0 }],
                           logs := [] }]
            userTaskStatus := [("att1", 0)]
            pendingTaskAttempts := ["att1"]
            userTaskResults := []
            ratings := [] }
    alerts := [] }

/-- State of `worldA` after a successful testing-status claim. -/
def worldATesting : World :=
  { db := { attempts := [{ spec := "att1", status := 1, verdict := 0,
                           verdictTest := 0,
                           results := [{ test := "t1", verdict := 0 }],
                           logs := [] }]
            userTaskStatus := [("att1", 1)]
            pendingTaskAttempts := ["att1"]
            userTaskResults := []
            ratings := [] }
    alerts := [] }

/-- Like `worldA` but with the attempt already claimed (status testing), so a
second claim reports zero modified documents. -/
def worldB : World :=
  { db := { attempts := [{ spec := "att1", status := 1, verdict := 0,
                           verdictTest := 0,
                           results := [{ test := "t1", verdict := 0 }],
                           logs := [] }]
            userTaskStatus := [("att1", 1)]
            pendingTaskAttempts := ["att1"]
            userTaskResults := []
            ratings := [] }
    alerts := [] }

/-- Previous best snapshot: fully correct with 100 percent. -/
def prevBestD : Snapshot :=
  { attempt := "old", date := 1, passedTests := 1, percentTests := 100,
    verdict := 0, verdictTest := 1 }

/-- Store already holding a fully-correct best for task `t`, user `u`. -/
def worldD : World :=
  { db := { attempts := []
            userTaskStatus := []
            pendingTaskAttempts := []
            userTaskResults := [{ task := "t", user := "u",
                                  results := [prevBestD], bests := [prevBestD] }]
            ratings := [] }
    alerts := [] }

/-- Store holding `attemptEmpty` still pending: zero result slots. -/
def worldE : World :=
  { db := { attempts := [{ spec := "e0", status := 0, verdict := 0,
                           verdictTest := 0, results := [], logs := [] }]
            userTaskStatus := [("e0", 0)]
            pendingTaskAttempts := ["e0"]
            userTaskResults := []
            ratings := [] }
    alerts := [] }

/-- Store holding `attemptEmpty` already claimed (status testing). -/
def worldG : World :=
  { db := { attempts := [{ spec := "e0", status := 1, verdict := 0,
                           verdictTest := 0, results := [], logs := [] }]
            userTaskStatus := [("e0", 1)]
            pendingTaskAttempts := ["e0"]
            userTaskResults := []
            ratings := [] }
    alerts := [] }

/-- A custom-checker queue item that lacks the checker descriptor. -/
def queueNoChecker : PendingQueueItem :=
  { taskType := 0, taskCheckType := 1, checker := none }

/-- A strategy that immediately returns empty verdicts and logs. -/
def strategyZ : Strategy := fun w => (w, .ok ([], []))

/-- A handler body that raises unconditionally. -/
def funcBoom : World → World × Except String Unit :=
  fun w => (w, .error "boom")

/-- Default result used as the fallback of positional lookups in proofs. -/
def resultDefault : Result := { test := "", verdict := 0 }

theorem assignVerdicts_map_verdict (rs : List Result) :
    ∀ vs : List Nat, rs.length = vs.length →
    (assignVerdicts rs vs).map Result.verdict = vs := by
  induction rs with
  | nil =>
      intro vs h
      cases vs with
      | nil => rfl
      | cons v vs => simp at h
  | cons r rest ih =>
      intro vs h
      cases vs with
      | nil => simp at h
      | cons v vs =>
          simp only [assignVerdicts, List.zipWith_cons_cons, List.map_cons] at *
          exact congrArg (List.cons v) (ih vs (by simpa using h))

theorem assignVerdicts_map_test (rs : List Result) :
    ∀ vs : List Nat, rs.length = vs.length →
    (assignVerdicts rs vs).map Result.test = rs.map Result.test := by
  induction rs with
  | nil => intro vs _; rfl
  | cons r rest ih =>
      intro vs h
      cases vs with
      | nil => simp at h
      | cons v vs =>
          simp only [assignVerdicts, List.zipWith_cons_cons, List.map_cons] at *
          exact congrArg (List.cons r.test) (ih vs (by simpa using h))

theorem assignVerdicts_length (rs : List Result) (vs : List Nat)
    (h : rs.length = vs.length) :
    (assignVerdicts rs vs).length = vs.length := by
  simp [assignVerdicts, h]

theorem assignVerdicts_getD_verdict (rs : List Result) :
    ∀ (vs : List Nat) (i : Nat), rs.length = vs.length → i < vs.length →
    ((assignVerdicts rs vs).getD i resultDefault).verdict = vs.getD i 0 := by
  induction rs with
  | nil =>
      intro vs i h hi
      cases vs with
      | nil => simp at hi
      | cons v vs => simp at h
  | cons r rest ih =>
      intro vs i h hi
      cases vs with
      | nil => simp at hi
      | cons v vs =>
          cases i with
          | zero => simp [assignVerdicts]
          | succ k =>
              have h' : rest.length = vs.length := by simpa using h
              have hi' : k < vs.length := by
                simp only [List.length_cons] at hi
                omega
              simp only [assignVerdicts, List.zipWith_cons_cons,
                List.getD_cons_succ]
              exact ih vs k h' hi'

theorem finalScan_all_zero (rs : List Result) :
    ∀ fv idx : Nat, rs ≠ [] → (∀ r ∈ rs, r.verdict = 0) →
    finalScan rs fv idx = (0, idx + rs.length) := by
  induction rs with
  | nil => intro fv idx h _; exact absurd rfl h
  | cons r rest ih =>
      intro fv idx _ hz
      have hr : r.verdict = 0 := hz r (List.mem_cons_self r rest)
      rcases eq_or_ne rest [] with hrest | hrest
      · subst hrest
        simp [finalScan, hr]
      · have hstep := ih 0 (idx + 1) hrest
          (fun x hx => hz x (List.mem_cons_of_mem r hx))
        have hscan : finalScan (r :: rest) fv idx =
            finalScan rest r.verdict (idx + 1) := by
          simp [finalScan, hr]
        rw [hscan, hr, hstep, List.length_cons]
        have harith : idx + 1 + rest.length = idx + (rest.length + 1) := by omega
        rw [harith]

theorem finalScan_first_failure (rs : List Result) :
    ∀ fv idx j : Nat,
    (∀ i, i < j → (rs.getD i resultDefault).verdict = 0) →
    j < rs.length →
    (rs.getD j resultDefault).verdict ≠ 0 →
    finalScan rs fv idx = ((rs.getD j resultDefault).verdict, idx + j + 1) := by
  induction rs with
  | nil => intro fv idx j _ hj _; simp at hj
  | cons r rest ih =>
      intro fv idx j hzero hj hnz
      cases j with
      | zero =>
          have hr : r.verdict ≠ 0 := by simpa using hnz
          simp [finalScan, hr]
      | succ k =>
          have hr : r.verdict = 0 := by
            have := hzero 0 (Nat.succ_pos k)
            simpa using this
          have h1 : ∀ i, i < k → (rest.getD i resultDefault).verdict = 0 := by
            intro i hi
            have := hzero (i + 1) (by omega)
            simpa using this
          have h2 : k < rest.length := by
            simpa using hj
          have h3 : (rest.getD k resultDefault).verdict ≠ 0 := by
            simpa using hnz
          have hstep := ih 0 (idx + 1) k h1 h2 h3
          have hscan : finalScan (r :: rest) fv idx =
              finalScan rest r.verdict (idx + 1) := by
            simp [finalScan, hr]
          rw [hscan, hr, hstep, List.getD_cons_succ]
          have harith : idx + 1 + k + 1 = idx + (k + 1) + 1 := by omega
          rw [harith]

/-- Claim C1: for equal-length result and verdict lists,
`_get_attempt_final_info` assigns the verdicts to the result slots in order
and returns the first non-zero verdict with its 1-based position; an all-zero
verdict list yields the OK verdict with the list length as index, and an
empty list yields the not-tested code with index 0. -/
theorem aggregation_first_failure (results : List Result) (verdicts : List Nat)
    (hlen : results.length = verdicts.length) :
    ((_get_attempt_final_info results verdicts).1.map Result.verdict = verdicts) ∧
    ((_get_attempt_final_info results verdicts).1.map Result.test =
      results.map Result.test) ∧
    (verdicts = [] →
      (_get_attempt_final_info results verdicts).2 = (map_verdict "NT", 0)) ∧
    ((∀ v ∈ verdicts, v = 0) → verdicts ≠ [] →
      (_get_attempt_final_info results verdicts).2 =
        (map_verdict "OK", verdicts.length)) ∧
    (∀ j, j < verdicts.length → (∀ i, i < j → verdicts.getD i 0 = 0) →
      verdicts.getD j 0 ≠ 0 →
      (_get_attempt_final_info results verdicts).2 =
        (verdicts.getD j 0, j + 1)) := by
  have hmapv := assignVerdicts_map_verdict results verdicts hlen
  have hlen2 := assignVerdicts_length results verdicts hlen
  refine ⟨hmapv, assignVerdicts_map_test results verdicts hlen, ?_, ?_, ?_⟩
  · intro hnil
    subst hnil
    have hres : results = [] := List.length_eq_zero.mp hlen
    subst hres
    rfl
  · intro hz hnil
    have hne : assignVerdicts results verdicts ≠ [] := by
      intro h
      rw [h] at hlen2
      exact hnil (List.length_eq_zero.mp hlen2.symm)
    have hall : ∀ r ∈ assignVerdicts results verdicts, r.verdict = 0 := by
      intro r hr
      have : r.verdict ∈ (assignVerdicts results verdicts).map Result.verdict :=
        List.mem_map_of_mem Result.verdict hr
      rw [hmapv] at this
      exact hz _ this
    show (assignVerdicts results verdicts,
      finalScan (assignVerdicts results verdicts) (map_verdict "NT") 0).2 = _
    rw [finalScan_all_zero (assignVerdicts results verdicts)
      (map_verdict "NT") 0 hne hall]
    simp [hlen2]
    rfl
  · intro j hj hzero hnz
    have hz' : ∀ i, i < j →
        ((assignVerdicts results verdicts).getD i resultDefault).verdict = 0 := by
      intro i hi
      rw [assignVerdicts_getD_verdict results verdicts i hlen (by omega)]
      exact hzero i hi
    have hj' : j < (assignVerdicts results verdicts).length := by omega
    have hnz' :
        ((assignVerdicts results verdicts).getD j resultDefault).verdict ≠ 0 := by
      rw [assignVerdicts_getD_verdict results verdicts j hlen hj]
      exact hnz
    show (assignVerdicts results verdicts,
      finalScan (assignVerdicts results verdicts) (map_verdict "NT") 0).2 = _
    rw [finalScan_first_failure (assignVerdicts results verdicts)
      (map_verdict "NT") 0 j hz' hj' hnz']
    rw [assignVerdicts_getD_verdict results verdicts j hlen hj]
    simp

/-- Witness for claim C1 at a concrete input: verdicts OK then WA give final
verdict WA with final index 2. -/
theorem aggregation_first_failure_witness :
    ([{ test := "a", verdict := 9 }, { test := "b", verdict := 9 }] :
        List Result).length = ([0, 4] : List Nat).length ∧
    (_get_attempt_final_info
        [{ test := "a", verdict := 9 }, { test := "b", verdict := 9 }]
        [0, 4]).2 = (4, 2) := by
  refine ⟨by decide, ?_⟩
  have h := aggregation_first_failure
    [{ test := "a", verdict := 9 }, { test := "b", verdict := 9 }] [0, 4]
    (by decide)
  have h5 := h.2.2.2.2 1 (by decide)
    (by intro i hi; rw [Nat.lt_one_iff.mp hi]; decide)
    (by decide)
  simpa using h5

theorem incRatingUpsert_preserves (db : DBState) (user : String) :
    (incRatingUpsert db user).attempts = db.attempts ∧
    (incRatingUpsert db user).userTaskStatus = db.userTaskStatus ∧
    (incRatingUpsert db user).pendingTaskAttempts = db.pendingTaskAttempts ∧
    (incRatingUpsert db user).userTaskResults = db.userTaskResults := by
  unfold incRatingUpsert
  split <;> exact ⟨rfl, rfl, rfl, rfl⟩

theorem save_task_results_alerts (w : World) (attempt : Attempt)
    (author_login task_spec : String) (verdicts : List Nat) (fv fvt : Nat) :
    (_save_task_results w attempt author_login task_spec verdicts
      fv fvt).1.alerts = w.alerts := by
  unfold _save_task_results
  split <;> rfl

theorem save_task_results_attempts (w : World) (attempt : Attempt)
    (author_login task_spec : String) (verdicts : List Nat) (fv fvt : Nat) :
    (_save_task_results w attempt author_login task_spec verdicts
      fv fvt).1.db.attempts = w.db.attempts := by
  unfold _save_task_results
  split
  · rfl
  · dsimp only
    split
    all_goals
      dsimp only
      split
      · exact (incRatingUpsert_preserves w.db author_login).1
      · rfl

theorem save_task_results_userTaskStatus (w : World) (attempt : Attempt)
    (author_login task_spec : String) (verdicts : List Nat) (fv fvt : Nat) :
    (_save_task_results w attempt author_login task_spec verdicts
      fv fvt).1.db.userTaskStatus = w.db.userTaskStatus := by
  unfold _save_task_results
  split
  · rfl
  · dsimp only
    split
    all_goals
      dsimp only
      split
      · exact (incRatingUpsert_preserves w.db author_login).2.1
      · rfl

theorem save_task_results_pending (w : World) (attempt : Attempt)
    (author_login task_spec : String) (verdicts : List Nat) (fv fvt : Nat) :
    (_save_task_results w attempt author_login task_spec verdicts
      fv fvt).1.db.pendingTaskAttempts = w.db.pendingTaskAttempts := by
  unfold _save_task_results
  split
  · rfl
  · dsimp only
    split
    all_goals
      dsimp only
      split
      · exact (incRatingUpsert_preserves w.db author_login).2.2.1
      · rfl

theorem save_task_results_ok (w : World) (attempt : Attempt)
    (author_login task_spec : String) (verdicts : List Nat) (fv fvt : Nat)
    (hne : verdicts ≠ []) :
    (_save_task_results w attempt author_login task_spec verdicts
      fv fvt).2 = .ok () := by
  unfold _save_task_results
  split
  · rename_i hlen
    have hlen0 : verdicts.length = 0 := by simpa using hlen
    exact absurd (List.length_eq_zero.mp hlen0) hne
  · rfl

theorem save_results_alerts (w : World) (attempt : Attempt)
    (author_login task_spec : String) (verdicts : List Nat)
    (logs : List String) :
    (_save_results w attempt author_login task_spec verdicts logs).1.alerts =
      w.alerts := by
  unfold _save_results
  dsimp only
  exact save_task_results_alerts _ _ _ _ _ _ _

theorem save_results_except (w : World) (attempt : Attempt)
    (author_login task_spec : String) (verdicts : List Nat)
    (logs : List String) :
    (_save_results w attempt author_login task_spec verdicts logs).2 =
      (_save_task_results
        { w with db := (_save_attempt_results
            (deletePendingTaskAttempt w.db attempt.spec) attempt.spec
            (_get_attempt_final_info attempt.results verdicts).1
            (_get_attempt_final_info attempt.results verdicts).2.1
            (_get_attempt_final_info attempt.results verdicts).2.2 logs) }
        attempt author_login task_spec verdicts
        (_get_attempt_final_info attempt.results verdicts).2.1
        (_get_attempt_final_info attempt.results verdicts).2.2).2 := rfl

theorem save_results_ok (w : World) (attempt : Attempt)
    (author_login task_spec : String) (verdicts : List Nat)
    (logs : List String) (hne : verdicts ≠ []) :
    (_save_results w attempt author_login task_spec verdicts logs).2 =
      .ok () := by
  rw [save_results_except]
  exact save_task_results_ok _ _ _ _ _ _ _ hne

/-- Claim C9: with an empty verdict list (and hence an empty Result list),
`_save_task_results` raises the division-by-zero error while computing
percentTests, before issuing any database action, so the normal persistence
path `_save_results` cannot complete for an attempt with zero tests. -/
theorem empty_results_division_error (w : World) (attempt : Attempt)
    (author_login task_spec : String) (fv fvt : Nat) (logs : List String) :
    _save_task_results w attempt author_login task_spec [] fv fvt =
      (w, .error "ZeroDivisionError: division by zero") ∧
    (_save_results w attempt author_login task_spec [] logs).2 =
      .error "ZeroDivisionError: division by zero" := ⟨rfl, rfl⟩

/-- Claim C2: whatever handler body `_soft_run` wraps and whatever exception
escapes it, the wrapper sends exactly one ManagerError alert carrying the
attempt spec and the exception text, then calls `_save_results` with a
uniform system-error verdict for every existing Result slot and the
exception text as the sole log entry; when that fallback save itself raises,
exactly one additional, distinct alert is sent.  The wrapper never re-raises:
`soft_run` returns a `World`, not an `Except`. -/
theorem soft_run_error_handling (func : World → World × Except String Unit)
    (attempt : Attempt) (author_login task_spec : String) (w w1 : World)
    (manager_exc : String) (h : func w = (w1, .error manager_exc)) :
    soft_run func attempt author_login task_spec w =
      (match _save_results
          (send_alert w1 "ManagerError" (attempt.spec ++ "\n" ++ manager_exc))
          attempt author_login task_spec
          (generate_tests_verdicts "SE" attempt.results.length)
          [manager_exc] with
       | (w3, .ok _) => w3
       | (w3, .error saving_exception) =>
           send_alert w3 "ManagerError (when saving results)"
             (attempt.spec ++ "\n" ++ saving_exception)) ∧
    (soft_run func attempt author_login task_spec w).alerts =
      w1.alerts ++ [("ManagerError", attempt.spec ++ "\n" ++ manager_exc)] ++
      (match (_save_results
          (send_alert w1 "ManagerError" (attempt.spec ++ "\n" ++ manager_exc))
          attempt author_login task_spec
          (generate_tests_verdicts "SE" attempt.results.length)
          [manager_exc]).2 with
       | .ok _ => []
       | .error saving_exception =>
           [("ManagerError (when saving results)",
             attempt.spec ++ "\n" ++ saving_exception)]) := by
  have hdef : soft_run func attempt author_login task_spec w =
      (match _save_results
          (send_alert w1 "ManagerError" (attempt.spec ++ "\n" ++ manager_exc))
          attempt author_login task_spec
          (generate_tests_verdicts "SE" attempt.results.length)
          [manager_exc] with
       | (w3, .ok _) => w3
       | (w3, .error saving_exception) =>
           send_alert w3 "ManagerError (when saving results)"
             (attempt.spec ++ "\n" ++ saving_exception)) := by
    unfold soft_run
    rw [h]
  refine ⟨hdef, ?_⟩
  rw [hdef]
  have halerts := save_results_alerts
    (send_alert w1 "ManagerError" (attempt.spec ++ "\n" ++ manager_exc))
    attempt author_login task_spec
    (generate_tests_verdicts "SE" attempt.results.length) [manager_exc]
  cases hs : _save_results
      (send_alert w1 "ManagerError" (attempt.spec ++ "\n" ++ manager_exc))
      attempt author_login task_spec
      (generate_tests_verdicts "SE" attempt.results.length)
      [manager_exc] with
  | mk ws rs =>
      rw [hs] at halerts
      cases rs with
      | ok u =>
          simp only []
          rw [halerts]
          simp [send_alert]
      | error e =>
          simp only []
          rw [send_alert, halerts]
          simp [send_alert]

/-- Witness for claim C2 at a concrete input: a handler that raises "boom"
on `worldA` leads to exactly one ManagerError alert (the fallback save
succeeds there). -/
theorem soft_run_error_handling_witness :
    funcBoom worldA = (worldA, .error "boom") ∧
    (soft_run funcBoom attemptA "u" "t" worldA).alerts =
      [("ManagerError", "att1\nboom")] := by
  refine ⟨rfl, ?_⟩
  have h := soft_run_error_handling funcBoom attemptA "u" "t" worldA worldA
    "boom" rfl
  rw [h.2]
  rfl

/-- Claim C3: `_set_testing` returns true exactly when the conditional
status update on the attempt document reports one modified record; when the
modified count differs from one it routes the not-tested fallback verdicts
and an explanatory log through `_save_results` before returning false; and
every handler that observes false returns immediately, for any grading
strategy whatsoever (hence without invoking one) and without raising. -/
theorem set_testing_lease_semantics (w : World) (attempt : Attempt)
    (author_login task_spec : String) :
    ((_set_testing w attempt author_login task_spec).2 = .ok true ↔
      (updateAttemptStatus w.db attempt.spec
        (map_attempt_status "testing")).2 = 1) ∧
    ((updateAttemptStatus w.db attempt.spec
        (map_attempt_status "testing")).2 ≠ 1 →
      _set_testing w attempt author_login task_spec =
        (match _save_results
            { w with db := (updateUserTaskStatus
                (updateAttemptStatus w.db attempt.spec
                  (map_attempt_status "testing")).1 attempt.spec
                (map_attempt_status "testing")) }
            attempt author_login task_spec
            (generate_tests_verdicts "NT" attempt.results.length)
            ["Error in setting testing status"] with
         | (w2, .ok _) => (w2, .ok false)
         | (w2, .error e) => (w2, .error e))) ∧
    (∀ w2, _set_testing w attempt author_login task_spec = (w2, .ok false) →
      ∀ (strategy : Strategy) (queue_item : PendingQueueItem),
        _handle_text_task strategy w attempt author_login task_spec =
          (w2, .ok ()) ∧
        _handle_tests_checker strategy w attempt author_login task_spec =
          (w2, .ok ()) ∧
        _handle_custom_checker strategy w attempt author_login task_spec
          queue_item = (w2, .ok ())) := by
  refine ⟨?_, ?_, ?_⟩
  · by_cases h1 : (updateAttemptStatus w.db attempt.spec
        (map_attempt_status "testing")).2 = 1
    · constructor
      · intro _
        exact h1
      · intro _
        unfold _set_testing
        dsimp only
        rw [if_pos (by simpa using h1)]
    · constructor
      · intro hset
        unfold _set_testing at hset
        rw [if_neg (by simpa using h1)] at hset
        split at hset
        · simp at hset
        · simp at hset
      · intro h
        exact absurd h h1
  · intro h1
    unfold _set_testing
    dsimp only
    rw [if_neg (by simpa using h1)]
  · intro w2 hfalse strategy queue_item
    refine ⟨?_, ?_, ?_⟩
    · unfold _handle_text_task
      rw [hfalse]
    · unfold _handle_tests_checker
      rw [hfalse]
    · unfold _handle_custom_checker
      rw [hfalse]

/-- Witness for claim C3 at a concrete input: `worldB` already holds the
attempt in testing status, so the claim modifies zero documents,
`_set_testing` returns false, and the text handler returns immediately. -/
theorem set_testing_lease_semantics_witness :
    (updateAttemptStatus worldB.db "att1" (map_attempt_status "testing")).2 ≠ 1 ∧
    (_set_testing worldB attemptA "u" "t").2 = .ok false ∧
    _handle_text_task strategyZ worldB attemptA "u" "t" =
      ((_set_testing worldB attemptA "u" "t").1, .ok ()) := by
  have h := set_testing_lease_semantics worldB attemptA "u" "t"
  have hfalse : _set_testing worldB attemptA "u" "t" =
      ((_set_testing worldB attemptA "u" "t").1, .ok false) := by rfl
  have h3 := (h.2.2 (_set_testing worldB attemptA "u" "t").1 hfalse
    strategyZ queueNoChecker).1
  exact ⟨by decide, rfl, h3⟩

theorem find?_map_update (l : List (String × Nat)) (u : String) :
    (l.map (fun p => if p.1 == u then (p.1, p.2 + 1) else p)).find?
        (fun p => p.1 == u) =
      (l.find? (fun p => p.1 == u)).map (fun p => (p.1, p.2 + 1)) := by
  induction l with
  | nil => rfl
  | cons a l ih =>
      rw [List.map_cons]
      by_cases ha : (a.1 == u) = true
      · rw [if_pos ha]
        rw [List.find?_cons_of_pos (p := fun x : String × Nat => x.1 == u)
          (a := (a.1, a.2 + 1)) _ ha]
        rw [List.find?_cons_of_pos (p := fun x : String × Nat => x.1 == u) _ ha]
        rfl
      · rw [if_neg ha]
        rw [List.find?_cons_of_neg (p := fun x : String × Nat => x.1 == u)
          (List.map (fun p => if p.1 == u then (p.1, p.2 + 1) else p) l) ha]
        rw [List.find?_cons_of_neg (p := fun x : String × Nat => x.1 == u) l ha]
        exact ih

theorem find?_append_of_none {α : Type} (l l2 : List α) (p : α → Bool)
    (h : l.find? p = none) : (l ++ l2).find? p = l2.find? p := by
  induction l with
  | nil => rfl
  | cons a l ih =>
      rw [List.cons_append]
      cases hpa : p a with
      | true =>
          rw [List.find?_cons_of_pos _ hpa] at h
          exact absurd h (by simp)
      | false =>
          rw [List.find?_cons_of_neg _ (by simp [hpa])] at h
          rw [List.find?_cons_of_neg _ (by simp [hpa])]
          exact ih h

theorem rating_score_incRatingUpsert (db : DBState) (user : String) :
    rating_score (incRatingUpsert db user) user =
      rating_score db user + 1 := by
  unfold incRatingUpsert rating_score
  by_cases h : db.ratings.any (fun p => p.1 == user) = true
  · rw [if_pos h]
    dsimp only
    rw [find?_map_update db.ratings user]
    cases hf : db.ratings.find? (fun p => p.1 == user) with
    | none =>
        have : ∃ x ∈ db.ratings, (x.1 == user) = true :=
          List.any_eq_true.mp h
        have hsome : (db.ratings.find? (fun p => p.1 == user)).isSome := by
          rw [List.find?_isSome]
          exact this
        rw [hf] at hsome
        simp at hsome
    | some p => rfl
  · rw [if_neg h]
    dsimp only
    have hnone : db.ratings.find? (fun p => p.1 == user) = none := by
      rw [List.find?_eq_none]
      intro x hx hpx
      exact h (List.any_eq_true.mpr ⟨x, hx, hpx⟩)
    rw [find?_append_of_none _ _ _ hnone, hnone]
    rw [List.find?_cons_of_pos _ (by simp)]

theorem save_task_results_ratings (w : World) (attempt : Attempt)
    (author_login task_spec : String) (verdicts : List Nat) (fv fvt : Nat)
    (hne : verdicts ≠ []) :
    (_save_task_results w attempt author_login task_spec verdicts
        fv fvt).1.db.ratings =
      (if ((previous_best w.db task_spec author_login).all
            fun b => b.verdict != 0) &&
          (new_best_attempt (previous_best w.db task_spec author_login)
            (current_attempt_snapshot attempt verdicts fv fvt)).verdict == 0
        then incRatingUpsert w.db author_login
        else w.db).ratings := by
  unfold _save_task_results
  rw [if_neg (by simpa [List.length_eq_zero] using hne)]
  dsimp only
  split <;> rfl

theorem option_all_nonzero_iff (o : Option Snapshot) (nb : Snapshot) :
    ((o.all fun b => b.verdict != 0) && nb.verdict == 0) = true ↔
      ((∀ b ∈ o, b.verdict ≠ 0) ∧ nb.verdict = 0) := by
  cases o <;> simp [Option.all]

/-- Claim C4: in `_save_task_results` the author's rating score is
incremented by exactly one (via upsert) precisely when the chosen new best
attempt is fully correct (verdict 0) and the previous best either does not
exist or was not fully correct; otherwise the ratings collection is left
untouched. -/
theorem rating_increment_iff (w : World) (attempt : Attempt)
    (author_login task_spec : String) (verdicts : List Nat) (fv fvt : Nat)
    (hne : verdicts ≠ []) :
    (((∀ b ∈ previous_best w.db task_spec author_login, b.verdict ≠ 0) ∧
        (new_best_attempt (previous_best w.db task_spec author_login)
          (current_attempt_snapshot attempt verdicts fv fvt)).verdict = 0) →
      rating_score (_save_task_results w attempt author_login task_spec
          verdicts fv fvt).1.db author_login =
        rating_score w.db author_login + 1) ∧
    (¬ ((∀ b ∈ previous_best w.db task_spec author_login, b.verdict ≠ 0) ∧
        (new_best_attempt (previous_best w.db task_spec author_login)
          (current_attempt_snapshot attempt verdicts fv fvt)).verdict = 0) →
      (_save_task_results w attempt author_login task_spec verdicts
        fv fvt).1.db.ratings = w.db.ratings) := by
  have hr := save_task_results_ratings w attempt author_login task_spec
    verdicts fv fvt hne
  constructor
  · intro hc
    have hb := (option_all_nonzero_iff
      (previous_best w.db task_spec author_login)
      (new_best_attempt (previous_best w.db task_spec author_login)
        (current_attempt_snapshot attempt verdicts fv fvt))).mpr hc
    unfold rating_score
    rw [hr, if_pos hb]
    exact rating_score_incRatingUpsert w.db author_login
  · intro hc
    have hb : (((previous_best w.db task_spec author_login).all
          fun b => b.verdict != 0) &&
        (new_best_attempt (previous_best w.db task_spec author_login)
          (current_attempt_snapshot attempt verdicts fv fvt)).verdict == 0)
        ≠ true := by
      intro habs
      exact hc ((option_all_nonzero_iff _ _).mp habs)
    rw [hr, if_neg hb]

/-- Witness for claim C4 at a concrete input: with no aggregate yet and a
fully-correct one-test attempt, the author's score becomes 1. -/
theorem rating_increment_iff_witness :
    (([0] : List Nat) ≠ []) ∧
    rating_score (_save_task_results worldA attemptA "u" "t"
      [0] 0 1).1.db "u" = 1 := by
  have h := rating_increment_iff worldA attemptA "u" "t" [0] 0 1 (by decide)
  have h1 := h.1 ⟨by
    intro b hb
    rw [show previous_best worldA.db "t" "u" = none from rfl] at hb
    simp at hb, rfl⟩
  refine ⟨by decide, ?_⟩
  rw [h1]
  rfl

/-- Claim C5: the new best appended by `_save_task_results` is the previous
best with its date refreshed to the current attempt's date exactly when a
previous best exists and either both are fully correct or the previous
percentage strictly exceeds the current one; in every other case (including
a missing aggregate or empty bests) the new best is the current attempt
snapshot; and the current snapshot is always appended to `results` (or used
to create the aggregate document when none exists). -/
theorem best_attempt_merge (w : World) (attempt : Attempt)
    (author_login task_spec : String) (verdicts : List Nat) (fv fvt : Nat)
    (hne : verdicts ≠ []) :
    (∀ b, previous_best w.db task_spec author_login = some b →
      (((b.verdict = fv ∧ fv = map_verdict "OK") ∨
          b.percentTests >
            (current_attempt_snapshot attempt verdicts fv fvt).percentTests) →
        new_best_attempt (some b)
            (current_attempt_snapshot attempt verdicts fv fvt) =
          { b with date := attempt.date }) ∧
      (¬ ((b.verdict = fv ∧ fv = map_verdict "OK") ∨
          b.percentTests >
            (current_attempt_snapshot attempt verdicts fv fvt).percentTests) →
        new_best_attempt (some b)
            (current_attempt_snapshot attempt verdicts fv fvt) =
          current_attempt_snapshot attempt verdicts fv fvt)) ∧
    (new_best_attempt none (current_attempt_snapshot attempt verdicts fv fvt) =
      current_attempt_snapshot attempt verdicts fv fvt) ∧
    (match w.db.userTaskResults.find? (fun d =>
        d.task == task_spec && d.user == author_login) with
     | none =>
        (_save_task_results w attempt author_login task_spec verdicts fv
            fvt).1.db.userTaskResults =
          w.db.userTaskResults ++
            [{ task := task_spec
               user := author_login
               results := [current_attempt_snapshot attempt verdicts fv fvt]
               bests := [new_best_attempt
                 (previous_best w.db task_spec author_login)
                 (current_attempt_snapshot attempt verdicts fv fvt)] }]
     | some _ =>
        (_save_task_results w attempt author_login task_spec verdicts fv
            fvt).1.db.userTaskResults =
          w.db.userTaskResults.map (fun d =>
            if d.task == task_spec && d.user == author_login then
              { d with
                  results := d.results ++
                    [current_attempt_snapshot attempt verdicts fv fvt]
                  bests := d.bests ++
                    [new_best_attempt
                      (previous_best w.db task_spec author_login)
                      (current_attempt_snapshot attempt verdicts fv fvt)] }
            else d)) := by
  refine ⟨?_, ?_, ?_⟩
  · intro b hb
    constructor
    · intro hc
      show (if (b.verdict = fv ∧ fv = map_verdict "OK") ∨
            b.percentTests >
              (current_attempt_snapshot attempt verdicts fv fvt).percentTests
          then { b with date := attempt.date }
          else current_attempt_snapshot attempt verdicts fv fvt) =
        { b with date := attempt.date }
      rw [if_pos hc]
    · intro hc
      show (if (b.verdict = fv ∧ fv = map_verdict "OK") ∨
            b.percentTests >
              (current_attempt_snapshot attempt verdicts fv fvt).percentTests
          then { b with date := attempt.date }
          else current_attempt_snapshot attempt verdicts fv fvt) =
        current_attempt_snapshot attempt verdicts fv fvt
      rw [if_neg hc]
  · rfl
  · cases hutr : w.db.userTaskResults.find? (fun d =>
        d.task == task_spec && d.user == author_login) with
    | none =>
        unfold _save_task_results
        rw [if_neg (by simpa [List.length_eq_zero] using hne)]
        dsimp only
        rw [hutr]
        dsimp only
        split
        · rename_i hcond
          rw [(incRatingUpsert_preserves w.db author_login).2.2.2]
        · rfl
    | some d0 =>
        unfold _save_task_results
        rw [if_neg (by simpa [List.length_eq_zero] using hne)]
        dsimp only
        rw [hutr]
        dsimp only
        split
        · rename_i hcond
          rw [(incRatingUpsert_preserves w.db author_login).2.2.2]
        · rfl

/-- Witness for claim C5 at a concrete input: a fully-correct previous best
and a fully-correct current attempt carry the previous best forward with a
refreshed date. -/
theorem best_attempt_merge_witness :
    (([0] : List Nat) ≠ []) ∧
    previous_best worldD.db "t" "u" = some prevBestD ∧
    new_best_attempt (some prevBestD)
        (current_attempt_snapshot attemptA [0] 0 1) =
      { prevBestD with date := attemptA.date } := by
  have h := best_attempt_merge worldD attemptA "u" "t" [0] 0 1 (by decide)
  have h1 := (h.1 prevBestD rfl).1 (Or.inl ⟨rfl, rfl⟩)
  exact ⟨by decide, rfl, h1⟩

/-- Claim C6: the percentTests stored in the current-attempt snapshot, in
exact arithmetic, is the floor of passed/total*100 where passed counts the
verdicts equal to the OK code; evaluated at the spec's instances 3/7 and 3/4
and at the failing input 29/100 (where the exact floor is 29, while the
Python code's IEEE-754 double evaluation of 29/100*100 gives
28.999999999999996 and floors to 28). -/
theorem percent_tests_truncation :
    (∀ (attempt : Attempt) (verdicts : List Nat) (fv fvt : Nat),
      (current_attempt_snapshot attempt verdicts fv fvt).percentTests =
        Nat.floor
          ((((verdicts.filter (fun v => v == map_verdict "OK")).length : ℚ) /
            (verdicts.length : ℚ)) * 100)) ∧
    (current_attempt_snapshot attemptA [0, 0, 0, 4, 4, 4, 4] 4 4).percentTests
      = 42 ∧
    (current_attempt_snapshot attemptA [0, 0, 0, 4] 4 4).percentTests = 75 ∧
    (current_attempt_snapshot attemptA
      (List.replicate 29 0 ++ List.replicate 71 4) 4 30).percentTests = 29 := by
  refine ⟨?_, rfl, rfl, rfl⟩
  intro attempt verdicts fv fvt
  have h1 : (((verdicts.filter (fun v => v == map_verdict "OK")).length : ℚ) /
      (verdicts.length : ℚ)) * 100 =
      (((verdicts.filter (fun v => v == map_verdict "OK")).length * 100 : ℕ) : ℚ) /
      ((verdicts.length : ℕ) : ℚ) := by
    push_cast
    ring
  rw [h1, Nat.floor_div_eq_div]
  rfl

theorem updateUserTaskStatus_pending (db : DBState) (s : String) (st : Nat) :
    (updateUserTaskStatus db s st).pendingTaskAttempts =
      db.pendingTaskAttempts := rfl

theorem updateUserTaskStatus_attempts (db : DBState) (s : String) (st : Nat) :
    (updateUserTaskStatus db s st).attempts = db.attempts := rfl

theorem updateUserTaskStatus_userTaskResults (db : DBState) (s : String)
    (st : Nat) :
    (updateUserTaskStatus db s st).userTaskResults = db.userTaskResults := rfl

theorem updateAttemptStatus_preserves (db : DBState) (s : String) (st : Nat) :
    (updateAttemptStatus db s st).1.userTaskStatus = db.userTaskStatus ∧
    (updateAttemptStatus db s st).1.pendingTaskAttempts =
      db.pendingTaskAttempts ∧
    (updateAttemptStatus db s st).1.userTaskResults = db.userTaskResults ∧
    (updateAttemptStatus db s st).1.ratings = db.ratings := by
  unfold updateAttemptStatus
  split <;> exact ⟨rfl, rfl, rfl, rfl⟩

theorem save_results_pending_eq (w : World) (attempt : Attempt)
    (author_login task_spec : String) (verdicts : List Nat)
    (logs : List String) :
    (_save_results w attempt author_login task_spec verdicts
        logs).1.db.pendingTaskAttempts =
      w.db.pendingTaskAttempts.eraseP (fun a => a == attempt.spec) := by
  unfold _save_results
  dsimp only
  rw [updateUserTaskStatus_pending, save_task_results_pending]
  rfl

theorem save_results_attempts_eq (w : World) (attempt : Attempt)
    (author_login task_spec : String) (verdicts : List Nat)
    (logs : List String) :
    (_save_results w attempt author_login task_spec verdicts
        logs).1.db.attempts =
      w.db.attempts.map (fun d =>
        if d.spec == attempt.spec then
          { d with
              status := map_attempt_status "finished"
              verdict := (_get_attempt_final_info attempt.results verdicts).2.1
              verdictTest :=
                (_get_attempt_final_info attempt.results verdicts).2.2
              results := (_get_attempt_final_info attempt.results verdicts).1
              logs := logs }
        else d) := by
  unfold _save_results
  dsimp only
  rw [updateUserTaskStatus_attempts, save_task_results_attempts]
  rfl

theorem save_results_mirror_eq (w : World) (attempt : Attempt)
    (author_login task_spec : String) (verdicts : List Nat)
    (logs : List String) :
    (_save_results w attempt author_login task_spec verdicts
        logs).1.db.userTaskStatus =
      w.db.userTaskStatus.map (fun p =>
        if p.1 == attempt.spec then (p.1, map_attempt_status "finished")
        else p) := by
  unfold _save_results updateUserTaskStatus
  dsimp only
  exact congrArg _ (by rw [save_task_results_userTaskStatus]; rfl)

theorem count_le_one_not_mem_eraseP (l : List String) (x : String)
    (h : l.count x ≤ 1) : x ∉ l.eraseP (fun a => a == x) := by
  induction l with
  | nil => simp
  | cons a l ih =>
      by_cases ha : (a == x) = true
      · rw [List.eraseP_cons_of_pos (p := fun b => b == x) ha]
        have hax : a = x := by simpa using ha
        subst hax
        have hc : l.count a = 0 := by
          rw [List.count_cons_self] at h
          omega
        exact List.count_eq_zero.mp hc
      · rw [List.eraseP_cons_of_neg (p := fun b => b == x) ha]
        intro hmem
        rcases List.mem_cons.mp hmem with hx | hx
        · exact ha (by simp [hx])
        · have hcl : l.count x ≤ 1 := by
            rw [List.count_cons] at h
            omega
          exact ih hcl hx

theorem save_results_pending_not_mem (w : World) (attempt : Attempt)
    (author_login task_spec : String) (verdicts : List Nat)
    (logs : List String)
    (hpend : w.db.pendingTaskAttempts.count attempt.spec ≤ 1) :
    attempt.spec ∉ (_save_results w attempt author_login task_spec verdicts
      logs).1.db.pendingTaskAttempts := by
  rw [save_results_pending_eq]
  exact count_le_one_not_mem_eraseP _ _ hpend

theorem save_results_attempts_mem (w : World) (attempt : Attempt)
    (author_login task_spec : String) (verdicts : List Nat)
    (logs : List String) :
    ∀ d ∈ (_save_results w attempt author_login task_spec verdicts
        logs).1.db.attempts, d.spec = attempt.spec →
      d.status = map_attempt_status "finished" ∧
      d.verdict = (_get_attempt_final_info attempt.results verdicts).2.1 ∧
      d.verdictTest = (_get_attempt_final_info attempt.results verdicts).2.2 ∧
      d.results = (_get_attempt_final_info attempt.results verdicts).1 ∧
      d.logs = logs := by
  intro d hd
  rw [save_results_attempts_eq] at hd
  rcases List.mem_map.mp hd with ⟨d0, hd0, rfl⟩
  intro hspec
  by_cases h : (d0.spec == attempt.spec) = true
  · rw [if_pos h]
    exact ⟨rfl, rfl, rfl, rfl, rfl⟩
  · rw [if_neg h] at hspec
    exact absurd hspec (by simpa using h)

theorem save_results_mirror_mem (w : World) (attempt : Attempt)
    (author_login task_spec : String) (verdicts : List Nat)
    (logs : List String) :
    ∀ p ∈ (_save_results w attempt author_login task_spec verdicts
        logs).1.db.userTaskStatus, p.1 = attempt.spec →
      p.2 = map_attempt_status "finished" := by
  intro p hp
  rw [save_results_mirror_eq] at hp
  rcases List.mem_map.mp hp with ⟨p0, hp0, rfl⟩
  intro hkey
  by_cases h : (p0.1 == attempt.spec) = true
  · rw [if_pos h]
  · rw [if_neg h] at hkey
    exact absurd hkey (by simpa using h)

/-- Claim C7: every `_save_results` call — the success path, the
system-error fallback of `_soft_run` and the not-tested fallbacks alike —
deletes the grading-job descriptor of the attempt, sets every attempt
document carrying the attempt's spec to status finished together with the
final verdict, the final verdict test index, the verdict-updated results
list and the logs, and sets every user-task-status mirror entry of the
attempt to finished. -/
theorem save_results_terminal_writes (w : World) (attempt : Attempt)
    (author_login task_spec : String) (verdicts : List Nat)
    (logs : List String)
    (hpend : w.db.pendingTaskAttempts.count attempt.spec ≤ 1) :
    attempt.spec ∉ (_save_results w attempt author_login task_spec verdicts
      logs).1.db.pendingTaskAttempts ∧
    (∀ d ∈ (_save_results w attempt author_login task_spec verdicts
        logs).1.db.attempts, d.spec = attempt.spec →
      d.status = map_attempt_status "finished" ∧
      d.verdict = (_get_attempt_final_info attempt.results verdicts).2.1 ∧
      d.verdictTest = (_get_attempt_final_info attempt.results verdicts).2.2 ∧
      d.results = (_get_attempt_final_info attempt.results verdicts).1 ∧
      d.logs = logs) ∧
    (∀ p ∈ (_save_results w attempt author_login task_spec verdicts
        logs).1.db.userTaskStatus, p.1 = attempt.spec →
      p.2 = map_attempt_status "finished") :=
  ⟨save_results_pending_not_mem w attempt author_login task_spec verdicts
    logs hpend,
   save_results_attempts_mem w attempt author_login task_spec verdicts logs,
   save_results_mirror_mem w attempt author_login task_spec verdicts logs⟩

/-- Witness for claim C7 at a concrete input. -/
theorem save_results_terminal_writes_witness :
    worldA.db.pendingTaskAttempts.count attemptA.spec ≤ 1 ∧
    attemptA.spec ∉
      (_save_results worldA attemptA "u" "t" [0]
        ["done"]).1.db.pendingTaskAttempts := by
  have h := save_results_terminal_writes worldA attemptA "u" "t" [0] ["done"]
    (by decide)
  exact ⟨by decide, h.1⟩

/-- Counterexample for claim C8 as stated: for an attempt with zero Result
slots (store `worldE`, attempt `attemptEmpty`), the lease is acquired and the
checker descriptor is missing, yet the handler body raises the
division-by-zero error out of the fallback save instead of returning without
any exception. -/
theorem custom_checker_missing_raises :
    (_handle_custom_checker strategyZ worldE attemptEmpty "u" "t"
      queueNoChecker).2 = .error "ZeroDivisionError: division by zero" := rfl

/-- Claim C8 (amended): when a custom-checker queue item lacks a checker
descriptor, the handler after acquiring the lease routes the not-tested
verdicts and the explanatory log through `_save_results` and, provided the
attempt has at least one Result slot, returns without invoking the
custom-checker strategy (the outcome is the same for every strategy) and
without raising. -/
theorem custom_checker_missing_fallback (w w1 : World) (attempt : Attempt)
    (author_login task_spec : String) (queue_item : PendingQueueItem)
    (hres : attempt.results ≠ [])
    (hchk : queue_item.checker = none)
    (hlease : _set_testing w attempt author_login task_spec =
      (w1, .ok true)) :
    ∀ strategy : Strategy,
      _handle_custom_checker strategy w attempt author_login task_spec
          queue_item =
        _save_results w1 attempt author_login task_spec
          (generate_tests_verdicts "NT" attempt.results.length)
          ["Error in setting testing status"] ∧
      (_handle_custom_checker strategy w attempt author_login task_spec
        queue_item).2 = .ok () := by
  intro strategy
  have hlen : attempt.results.length ≠ 0 :=
    fun h0 => hres (List.length_eq_zero.mp h0)
  have hverd : generate_tests_verdicts "NT" attempt.results.length ≠ [] := by
    simp only [generate_tests_verdicts, ne_eq, List.replicate_eq_nil_iff]
    exact hlen
  have heq : _handle_custom_checker strategy w attempt author_login task_spec
      queue_item =
      _save_results w1 attempt author_login task_spec
        (generate_tests_verdicts "NT" attempt.results.length)
        ["Error in setting testing status"] := by
    unfold _handle_custom_checker
    rw [hlease, hchk]
  refine ⟨heq, ?_⟩
  rw [heq]
  exact save_results_ok _ _ _ _ _ _ hverd

/-- Witness for claim C8 (amended) at a concrete input. -/
theorem custom_checker_missing_fallback_witness :
    attemptA.results ≠ [] ∧ queueNoChecker.checker = none ∧
    _set_testing worldA attemptA "u" "t" = (worldATesting, .ok true) ∧
    (_handle_custom_checker strategyZ worldA attemptA "u" "t"
      queueNoChecker).2 = .ok () := by
  have h := custom_checker_missing_fallback worldA worldATesting attemptA
    "u" "t" queueNoChecker (by decide) rfl rfl
  exact ⟨by decide, rfl, rfl, (h strategyZ).2⟩

theorem aggregate_results_count_congr (db1 db2 : DBState)
    (task user : String) (h : db1.userTaskResults = db2.userTaskResults) :
    aggregate_results_count db1 task user =
      aggregate_results_count db2 task user := by
  unfold aggregate_results_count
  rw [h]

theorem find?_map_push (l : List UserTaskResultDoc)
    (task_spec author_login : String) (cur nb : Snapshot) :
    (l.map (fun d =>
        if d.task == task_spec && d.user == author_login then
          { d with results := d.results ++ [cur], bests := d.bests ++ [nb] }
        else d)).find?
      (fun d => d.task == task_spec && d.user == author_login) =
      (l.find? (fun d => d.task == task_spec && d.user == author_login)).map
        (fun d =>
          { d with results := d.results ++ [cur],
                   bests := d.bests ++ [nb] }) := by
  induction l with
  | nil => rfl
  | cons a l ih =>
      rw [List.map_cons]
      by_cases ha : (a.task == task_spec && a.user == author_login) = true
      · rw [if_pos ha]
        rw [List.find?_cons_of_pos
          (p := fun d : UserTaskResultDoc =>
            d.task == task_spec && d.user == author_login)
          (a := { a with results := a.results ++ [cur],
                         bests := a.bests ++ [nb] }) _ ha]
        rw [List.find?_cons_of_pos
          (p := fun d : UserTaskResultDoc =>
            d.task == task_spec && d.user == author_login) _ ha]
        rfl
      · rw [if_neg ha]
        rw [List.find?_cons_of_neg
          (p := fun d : UserTaskResultDoc =>
            d.task == task_spec && d.user == author_login)
          (List.map (fun d =>
            if d.task == task_spec && d.user == author_login then
              { d with results := d.results ++ [cur],
                       bests := d.bests ++ [nb] }
            else d) l) ha]
        rw [List.find?_cons_of_neg
          (p := fun d : UserTaskResultDoc =>
            d.task == task_spec && d.user == author_login) l ha]
        exact ih

theorem ite_incRating_userTaskResults (c : Prop) [Decidable c]
    (db : DBState) (u : String) :
    (if c then incRatingUpsert db u else db).userTaskResults =
      db.userTaskResults := by
  split
  · exact (incRatingUpsert_preserves db u).2.2.2
  · rfl

theorem save_task_results_aggregate_count (w : World) (attempt : Attempt)
    (author_login task_spec : String) (verdicts : List Nat) (fv fvt : Nat)
    (hne : verdicts ≠ []) :
    aggregate_results_count (_save_task_results w attempt author_login
        task_spec verdicts fv fvt).1.db task_spec author_login =
      aggregate_results_count w.db task_spec author_login + 1 := by
  unfold _save_task_results
  rw [if_neg (by simpa [List.length_eq_zero] using hne)]
  dsimp only
  unfold aggregate_results_count
  cases hutr : w.db.userTaskResults.find? (fun d =>
      d.task == task_spec && d.user == author_login) with
  | none =>
      dsimp only
      rw [ite_incRating_userTaskResults, find?_append_of_none _ _ _ hutr]
      rw [List.find?_cons_of_pos
        (p := fun d : UserTaskResultDoc =>
          d.task == task_spec && d.user == author_login) _ (by simp)]
      rfl
  | some d0 =>
      dsimp only
      rw [ite_incRating_userTaskResults, find?_map_push, hutr]
      simp

theorem save_results_aggregate_count (w : World) (attempt : Attempt)
    (author_login task_spec : String) (verdicts : List Nat)
    (logs : List String) (hne : verdicts ≠ []) :
    aggregate_results_count (_save_results w attempt author_login task_spec
        verdicts logs).1.db task_spec author_login =
      aggregate_results_count w.db task_spec author_login + 1 := by
  unfold _save_results
  dsimp only
  have h := save_task_results_aggregate_count
    { w with db := (_save_attempt_results
        (deletePendingTaskAttempt w.db attempt.spec) attempt.spec
        (_get_attempt_final_info attempt.results verdicts).1
        (_get_attempt_final_info attempt.results verdicts).2.1
        (_get_attempt_final_info attempt.results verdicts).2.2 logs) }
    attempt author_login task_spec verdicts
    (_get_attempt_final_info attempt.results verdicts).2.1
    (_get_attempt_final_info attempt.results verdicts).2.2 hne
  rw [aggregate_results_count_congr _ _ task_spec author_login
    (updateUserTaskStatus_userTaskResults _ _ _)]
  exact h

theorem assignVerdicts_replicate_mem (rs : List Result) (v : Nat) :
    ∀ r ∈ assignVerdicts rs (List.replicate rs.length v), r.verdict = v := by
  intro r hr
  have hmap := assignVerdicts_map_verdict rs (List.replicate rs.length v)
    (by simp)
  have hm : r.verdict ∈
      (assignVerdicts rs (List.replicate rs.length v)).map Result.verdict :=
    List.mem_map_of_mem Result.verdict hr
  rw [hmap] at hm
  exact List.eq_of_mem_replicate hm

/-- Counterexample for claim C10 as stated: for an attempt with zero Result
slots whose lease claim fails (store `worldG`), the fallback raises the
division-by-zero error and no snapshot is appended to the user-task
aggregate, so the losing invocation does not perform all four terminal
writes. -/
theorem lease_lost_empty_no_aggregate_write :
    (updateAttemptStatus worldG.db "e0" (map_attempt_status "testing")).2
      ≠ 1 ∧
    (_set_testing worldG attemptEmpty "u" "t").1.db.userTaskResults = [] ∧
    (_set_testing worldG attemptEmpty "u" "t").2 =
      .error "ZeroDivisionError: division by zero" := ⟨by decide, rfl, rfl⟩

/-- Claim C10 (amended): whenever the lease claim fails and the attempt has
at least one Result slot, the losing `_set_testing` invocation completes the
full `_save_results` path: it returns false after deleting the grading-job
descriptor, overwriting every attempt document of the spec to finished with
uniformly not-tested verdicts, appending one snapshot to the user-task
aggregate, and setting the status mirror to finished — all on state a
concurrent winning invocation may be grading.  With zero Result slots the
aggregate write instead raises division-by-zero. -/
theorem lease_lost_full_persistence (w : World) (attempt : Attempt)
    (author_login task_spec : String)
    (hmod : (updateAttemptStatus w.db attempt.spec
      (map_attempt_status "testing")).2 ≠ 1)
    (hres : attempt.results ≠ [])
    (hpend : w.db.pendingTaskAttempts.count attempt.spec ≤ 1) :
    (_set_testing w attempt author_login task_spec).2 = .ok false ∧
    attempt.spec ∉
      (_set_testing w attempt author_login
        task_spec).1.db.pendingTaskAttempts ∧
    (∀ d ∈ (_set_testing w attempt author_login task_spec).1.db.attempts,
      d.spec = attempt.spec →
        d.status = map_attempt_status "finished" ∧
        ∀ r ∈ d.results, r.verdict = map_verdict "NT") ∧
    aggregate_results_count
        (_set_testing w attempt author_login task_spec).1.db task_spec
        author_login =
      aggregate_results_count w.db task_spec author_login + 1 ∧
    (∀ p ∈ (_set_testing w attempt author_login
        task_spec).1.db.userTaskStatus,
      p.1 = attempt.spec → p.2 = map_attempt_status "finished") := by
  have hlen : attempt.results.length ≠ 0 :=
    fun h0 => hres (List.length_eq_zero.mp h0)
  have hverd : generate_tests_verdicts "NT" attempt.results.length ≠ [] := by
    simp only [generate_tests_verdicts, ne_eq, List.replicate_eq_nil_iff]
    exact hlen
  have hsave2 : (_save_results
      { w with db := (updateUserTaskStatus
        (updateAttemptStatus w.db attempt.spec
          (map_attempt_status "testing")).1 attempt.spec
        (map_attempt_status "testing")) }
      attempt author_login task_spec
      (generate_tests_verdicts "NT" attempt.results.length)
      ["Error in setting testing status"]).2 = .ok () :=
    save_results_ok _ _ _ _ _ _ hverd
  have hst : _set_testing w attempt author_login task_spec =
      ((_save_results
        { w with db := (updateUserTaskStatus
          (updateAttemptStatus w.db attempt.spec
            (map_attempt_status "testing")).1 attempt.spec
          (map_attempt_status "testing")) }
        attempt author_login task_spec
        (generate_tests_verdicts "NT" attempt.results.length)
        ["Error in setting testing status"]).1, .ok false) := by
    unfold _set_testing
    dsimp only
    rw [if_neg (by simpa using hmod)]
    cases hs : _save_results
        { w with db := (updateUserTaskStatus
          (updateAttemptStatus w.db attempt.spec
            (map_attempt_status "testing")).1 attempt.spec
          (map_attempt_status "testing")) }
        attempt author_login task_spec
        (generate_tests_verdicts "NT" attempt.results.length)
        ["Error in setting testing status"] with
    | mk ws rs =>
        rw [hs] at hsave2
        cases rs with
        | ok u => rfl
        | error e => simp at hsave2
  have hp1 : ({ w with db := (updateUserTaskStatus
      (updateAttemptStatus w.db attempt.spec
        (map_attempt_status "testing")).1 attempt.spec
      (map_attempt_status "testing")) } : World).db.pendingTaskAttempts =
      w.db.pendingTaskAttempts := by
    rw [updateUserTaskStatus_pending]
    exact (updateAttemptStatus_preserves w.db attempt.spec
      (map_attempt_status "testing")).2.1
  have hu1 : ({ w with db := (updateUserTaskStatus
      (updateAttemptStatus w.db attempt.spec
        (map_attempt_status "testing")).1 attempt.spec
      (map_attempt_status "testing")) } : World).db.userTaskResults =
      w.db.userTaskResults := by
    rw [updateUserTaskStatus_userTaskResults]
    exact (updateAttemptStatus_preserves w.db attempt.spec
      (map_attempt_status "testing")).2.2.1
  refine ⟨by rw [hst], ?_, ?_, ?_, ?_⟩
  · rw [hst]
    apply save_results_pending_not_mem
    rw [hp1]
    exact hpend
  · rw [hst]
    intro d hd hspec
    have hmem := save_results_attempts_mem _ attempt author_login task_spec
      (generate_tests_verdicts "NT" attempt.results.length)
      ["Error in setting testing status"] d hd hspec
    refine ⟨hmem.1, ?_⟩
    rw [hmem.2.2.2.1]
    exact assignVerdicts_replicate_mem attempt.results (map_verdict "NT")
  · rw [hst]
    rw [save_results_aggregate_count _ attempt author_login task_spec
      (generate_tests_verdicts "NT" attempt.results.length)
      ["Error in setting testing status"] hverd]
    rw [aggregate_results_count_congr _ _ task_spec author_login hu1]
  · rw [hst]
    exact save_results_mirror_mem _ attempt author_login task_spec
      (generate_tests_verdicts "NT" attempt.results.length)
      ["Error in setting testing status"]

/-- Witness for claim C10 (amended) at a concrete input: a second claim on
`worldB` loses the lease, returns false, and grows the aggregate history by
one snapshot. -/
theorem lease_lost_full_persistence_witness :
    (updateAttemptStatus worldB.db attemptA.spec
      (map_attempt_status "testing")).2 ≠ 1 ∧
    attemptA.results ≠ [] ∧
    worldB.db.pendingTaskAttempts.count attemptA.spec ≤ 1 ∧
    (_set_testing worldB attemptA "u" "t").2 = .ok false ∧
    aggregate_results_count
        (_set_testing worldB attemptA "u" "t").1.db "t" "u" =
      aggregate_results_count worldB.db "t" "u" + 1 := by
  have h := lease_lost_full_persistence worldB attemptA "u" "t" (by decide)
    (by decide) (by decide)
  exact ⟨by decide, by decide, by decide, h.1, h.2.2.2.1⟩

end Accept
